import Mathlib

/-!
Verification of the meal-description nutrition estimator (`parseMeal`), the
display formatter (`formatParsedMeal`) and the aggregator (`calculateTotals`)
from `src/lib/parseMeal` of the wellness-tracker repository.

The TypeScript module is embedded shallowly:

* JavaScript numbers are idealised as exact rationals (`ℚ`), except where the
  special values `NaN` / `Infinity` can actually arise (the reconciliation
  division); those are represented by the inductive type `JSNum`.
* `string.toLowerCase()` / `toUpperCase()` are modelled character-wise by the
  ASCII case maps (`Char.toLower` / `Char.toUpper`), which agree with
  JavaScript on the ASCII range used by the lexicons.
* `lowerDesc.includes(food)` is the substring test `containsSeq`.
* The quantity regular expression `qw\s+food|food\s+qw` (built and tested via
  `RegExp.test`) is modelled by `adjQuant`, an executable existence check for
  `qw`, one or more whitespace characters, then `food` (or symmetrically)
  occurring inside the description.
* `Math.round` is `jround q = ⌊q + 1/2⌋` (JavaScript rounds half towards +∞).
* `meals.reduce(f, init)` is `List.foldl`.
* The artificial 500 ms delay carries no semantic content and is dropped, so
  `parseMeal` is a pure function.
* `Object.entries(quantities)` enumerates the integer-like keys "2", "3", "4"
  first (in ascending numeric order) and the remaining string keys in
  insertion order; the `quantities` list below is written in exactly that
  iteration order.  `mockFoodDatabase` has no integer-like keys, so its
  insertion order is kept as is.
-/

/-- ASCII-wise model of `String.prototype.toLowerCase` (character map). -/
def strLower (s : String) : String :=
  String.mk (s.data.map Char.toLower)

/-- ASCII-wise model of `String.prototype.toUpperCase` (character map). -/
def strUpper (s : String) : String :=
  String.mk (s.data.map Char.toUpper)

/-- Does `pat` occur as a leading block of `l`?  Used to model substring
search; executable counterpart of `List.IsPrefix` on characters. -/
def beginsWith : List Char → List Char → Bool
  | [], _ => true
  | _ :: _, [] => false
  | p :: ps, c :: cs => p == c && beginsWith ps cs

/-- Does `pat` occur contiguously anywhere inside `l`?  This is the model of
JavaScript `String.prototype.includes`. -/
def containsSeq (pat : List Char) : List Char → Bool
  | [] => beginsWith pat []
  | l@(_ :: t) => beginsWith pat l || containsSeq pat t

/-- The JavaScript `\s` character class (whitespace as matched by `RegExp`). -/
def isWs (c : Char) : Bool :=
  c == ' ' || c == '\t' || c == '\n' || c == '\r' ||
  c.toNat == 11 || c.toNat == 12 || c.toNat == 160 || c.toNat == 0x1680 ||
  (0x2000 ≤ c.toNat && c.toNat ≤ 0x200a) ||
  c.toNat == 0x2028 || c.toNat == 0x2029 || c.toNat == 0x202f ||
  c.toNat == 0x205f || c.toNat == 0x3000 || c.toNat == 0xfeff

/-- Does `l` start with one or more whitespace characters immediately followed
by the block `pat`?  (The `\s+pat` part of the quantity pattern.) -/
def wsThen (pat : List Char) : List Char → Bool
  | [] => false
  | c :: rest => isWs c && (beginsWith pat rest || wsThen pat rest)

/-- Does `a` followed by one or more whitespace characters followed by `b`
occur anywhere inside `l`?  (Unanchored match of the pattern `a\s+b`.) -/
def seqMatch (a b : List Char) : List Char → Bool
  | [] => false
  | l@(_ :: t) => (beginsWith a l && wsThen b (l.drop a.length)) || seqMatch a b t

/-- Model of `new RegExp(qw\s+food|food\s+qw).test(desc)`: the quantity word
adjacent (whitespace-separated) to the food phrase, in either order. -/
def adjQuant (qw food desc : List Char) : Bool :=
  seqMatch qw food desc || seqMatch food qw desc

/-- The quantity lexicon, in `Object.entries` iteration order (integer-like
keys first, ascending; then string keys in insertion order). -/
def quantities : List (String × ℚ) :=
  [("2", 2), ("3", 3), ("4", 4),
   ("two", 2), ("three", 3), ("four", 4),
   ("double", 2), ("large", 3/2), ("small", 3/4), ("half", 1/2)]

/-- Macro values of one food-lexicon entry. -/
structure FoodInfo where
  cal : ℚ
  prot : ℚ
  carb : ℚ
  fatv : ℚ
deriving DecidableEq

/-- The food lexicon `mockFoodDatabase`, in source (insertion) order.  Every
entry of the original object supplies all four fields, so `x || 0` in the
accumulation step is value-preserving and the fields are stored directly. -/
def mockFoodDatabase : List (String × FoodInfo) :=
  [("egg", ⟨70, 6, 1, 5⟩),
   ("eggs", ⟨140, 12, 2, 10⟩),
   ("toast", ⟨75, 3, 14, 1⟩),
   ("bread", ⟨75, 3, 14, 1⟩),
   ("butter", ⟨100, 0, 0, 11⟩),
   ("oatmeal", ⟨150, 5, 27, 3⟩),
   ("banana", ⟨105, 1, 27, 0⟩),
   ("apple", ⟨95, 0, 25, 0⟩),
   ("orange", ⟨62, 1, 15, 0⟩),
   ("coffee", ⟨2, 0, 0, 0⟩),
   ("milk", ⟨150, 8, 12, 8⟩),
   ("chicken", ⟨165, 31, 0, 4⟩),
   ("chicken breast", ⟨165, 31, 0, 4⟩),
   ("rice", ⟨205, 4, 45, 0⟩),
   ("pasta", ⟨220, 8, 43, 1⟩),
   ("salad", ⟨20, 1, 4, 0⟩),
   ("sandwich", ⟨350, 15, 35, 15⟩),
   ("burger", ⟨540, 25, 40, 27⟩),
   ("pizza", ⟨285, 12, 36, 10⟩),
   ("steak", ⟨271, 25, 0, 19⟩),
   ("salmon", ⟨208, 20, 0, 13⟩),
   ("vegetables", ⟨50, 2, 10, 0⟩),
   ("broccoli", ⟨55, 4, 11, 1⟩),
   ("chips", ⟨150, 2, 15, 10⟩),
   ("cookies", ⟨160, 2, 21, 8⟩),
   ("yogurt", ⟨100, 10, 12, 0⟩),
   ("nuts", ⟨160, 7, 6, 14⟩),
   ("protein bar", ⟨200, 20, 20, 7⟩),
   ("smoothie", ⟨250, 10, 40, 5⟩)]

/-- The inner quantity loop: scan the lexicon entries in iteration order and
return the value of the first entry whose word is adjacent to the food phrase
(the source breaks out of the loop at the first hit); default multiplier 1. -/
def quantLoop (desc food : List Char) : List (String × ℚ) → ℚ
  | [] => 1
  | q :: rest => if adjQuant q.1.data food desc then q.2 else quantLoop desc food rest

/-- Multiplier chosen for a matched `food` phrase inside `desc`. -/
def multiplierFor (desc food : List Char) : ℚ :=
  quantLoop desc food quantities

/-- Running totals of the food-matching loop. -/
structure MatchAcc where
  cal : ℚ
  prot : ℚ
  carb : ℚ
  fatv : ℚ
  count : ℕ
deriving DecidableEq

/-- One iteration of the food loop: when the key occurs in the description,
add each macro times the multiplier and bump `matchCount`. -/
def matchStep (desc : List Char) (acc : MatchAcc) (e : String × FoodInfo) : MatchAcc :=
  if containsSeq e.1.data desc then
    { cal := acc.cal + e.2.cal * multiplierFor desc e.1.data
      prot := acc.prot + e.2.prot * multiplierFor desc e.1.data
      carb := acc.carb + e.2.carb * multiplierFor desc e.1.data
      fatv := acc.fatv + e.2.fatv * multiplierFor desc e.1.data
      count := acc.count + 1 }
  else acc

/-- The whole food-matching loop over the lexicon. -/
def scanFoods (desc : List Char) : MatchAcc :=
  mockFoodDatabase.foldl (matchStep desc) ⟨0, 0, 0, 0, 0⟩

/-- JavaScript `Math.round` on an exact rational: half rounds towards +∞. -/
def jround (q : ℚ) : ℤ :=
  ⌊q + 1/2⌋

/-- A JavaScript number value: either a finite (idealised exact) rational, or
one of the special values produced by division by zero. -/
inductive JSNum where
  | nan : JSNum
  | posInf : JSNum
  | negInf : JSNum
  | fin : ℚ → JSNum
deriving DecidableEq

/-- Division of two finite JavaScript numbers: `a / 0` is `±Infinity` for
`a ≠ 0` and `NaN` for `a = 0`; otherwise exact. -/
def jsDivQ (a b : ℚ) : JSNum :=
  if b = 0 then (if a = 0 then .nan else if a > 0 then .posInf else .negInf)
  else .fin (a / b)

/-- Product of a finite number with a JavaScript number; `0 * ±Infinity` is
`NaN`. -/
def jsMulQ (q : ℚ) : JSNum → JSNum
  | .nan => .nan
  | .posInf => if q > 0 then .posInf else if q < 0 then .negInf else .nan
  | .negInf => if q > 0 then .negInf else if q < 0 then .posInf else .nan
  | .fin r => .fin (q * r)

/-- `Math.round` extended to JavaScript numbers: fixes `NaN` and `±Infinity`. -/
def jsRoundN : JSNum → JSNum
  | .fin q => .fin (jround q : ℤ)
  | x => x

/-- Addition of JavaScript numbers (`NaN` absorbs; `∞ + -∞ = NaN`). -/
def jsAdd : JSNum → JSNum → JSNum
  | .nan, _ => .nan
  | _, .nan => .nan
  | .posInf, .negInf => .nan
  | .negInf, .posInf => .nan
  | .posInf, _ => .posInf
  | _, .posInf => .posInf
  | .negInf, _ => .negInf
  | _, .negInf => .negInf
  | .fin a, .fin b => .fin (a + b)

/-- The result record of the estimator: TypeScript `ParsedMeal`.  The four
macro fields are `number | null`; `confidence` is an optional plain number. -/
structure ParsedMeal where
  calories : Option JSNum
  protein : Option JSNum
  carbs : Option JSNum
  fat : Option JSNum
  confidence : Option ℚ
deriving DecidableEq

/-- Truthiness of a `number | null` field: `null`, `0` and `NaN` are falsy. -/
def jsTruthy : Option JSNum → Bool
  | none => false
  | some .nan => false
  | some .posInf => true
  | some .negInf => true
  | some (.fin q) => decide (q ≠ 0)

/-- The `x || 0` coalescing used by the aggregator: falsy values become 0. -/
def jsOr0 : Option JSNum → JSNum
  | none => .fin 0
  | some .nan => .fin 0
  | some .posInf => .posInf
  | some .negInf => .negInf
  | some (.fin q) => .fin q

/-- Core of `parseMeal`, after factoring out the two uses of the raw input:
the lowercased description (for matching) and the count of `' '` characters
(the no-match fallback computes `description.split(' ').length`, which equals
that count plus one). -/
def parseMealCore (desc : List Char) (spaces : ℕ) : ParsedMeal :=
  let acc := scanFoods desc
  if acc.count = 0 then
    let words : ℚ := (spaces + 1 : ℕ)
    let baseCals : ℚ := min (100 + words * 50) 800
    { calories := some (.fin baseCals)
      protein := some (.fin (jround (baseCals * (15/100) / 4) : ℤ))
      carbs := some (.fin (jround (baseCals * (50/100) / 4) : ℤ))
      fat := some (.fin (jround (baseCals * (35/100) / 9) : ℤ))
      confidence := some (3/10) }
  else
    let cal : ℚ := (jround acc.cal : ℤ)
    let p : ℚ := (jround acc.prot : ℤ)
    let c : ℚ := (jround acc.carb : ℤ)
    let f : ℚ := (jround acc.fatv : ℤ)
    let conf : ℚ := min (9/10) (3/10 + (acc.count : ℚ) * (2/10))
    let calculatedCals : ℚ := p * 4 + c * 4 + f * 9
    let calorieDiff : ℚ := |calculatedCals - cal|
    if calorieDiff > cal * (2/10) then
      { calories := some (.fin cal)
        protein := some (jsRoundN (jsMulQ p (jsDivQ cal calculatedCals)))
        carbs := some (jsRoundN (jsMulQ c (jsDivQ cal calculatedCals)))
        fat := some (jsRoundN (jsMulQ f (jsDivQ cal calculatedCals)))
        confidence := some conf }
    else
      { calories := some (.fin cal)
        protein := some (.fin p)
        carbs := some (.fin c)
        fat := some (.fin f)
        confidence := some conf }

/-- The estimator `parseMeal` (the simulated network delay is dropped). -/
def parseMeal (mealDescription : String) : ParsedMeal :=
  parseMealCore ((strLower mealDescription).data) (mealDescription.data.count ' ')

/-- Decimal digits of a fractional part `0 ≤ q < 1`, up to `fuel` places
(stops early when the expansion terminates; 20 places exceed the precision a
JavaScript double can carry). -/
def fracDigits : ℕ → ℚ → List Char
  | 0, _ => []
  | fuel + 1, q =>
    if q = 0 then []
    else Char.ofNat (48 + (⌊q * 10⌋).toNat) :: fracDigits fuel (q * 10 - (⌊q * 10⌋ : ℤ))

/-- Decimal rendering of a finite JavaScript number (exact for the integral
values this module produces; terminating decimals are printed in full). -/
def ratToString (q : ℚ) : String :=
  (if q < 0 then "-" else "") ++ Nat.repr (⌊|q|⌋).toNat ++
    (if |q| - (⌊|q|⌋ : ℤ) = 0 then ""
     else "." ++ String.mk (fracDigits 20 (|q| - (⌊|q|⌋ : ℤ))))

/-- `${x}` string interpolation of a JavaScript number. -/
def jsNumToString : JSNum → String
  | .nan => "NaN"
  | .posInf => "Infinity"
  | .negInf => "-Infinity"
  | .fin q => ratToString q

/-- `${x}` string interpolation of a `number | null` field. -/
def optNumToString : Option JSNum → String
  | none => "null"
  | some x => jsNumToString x

/-- `Array.prototype.join` with a separator. -/
def joinParts (sep : String) : List String → String
  | [] => ""
  | [x] => x
  | x :: y :: ys => x ++ sep ++ joinParts sep (y :: ys)

/-- The join delimiter exactly as it appears in the source file (the bytes of
`' â€¢ '`). -/
def joinSep : String :=
  " â€¢ "

/-- The display formatter `formatParsedMeal`.  The source tests
`!parsed.calories` (truthiness) and pushes each macro part only when the field
is truthy, so `0` and `NaN` are dropped exactly like `null`. -/
def formatParsedMeal (parsed : ParsedMeal) : String :=
  if jsTruthy parsed.calories then
    joinParts joinSep
      ([optNumToString parsed.calories ++ " cal"]
        ++ (if jsTruthy parsed.protein then [optNumToString parsed.protein ++ "g protein"] else [])
        ++ (if jsTruthy parsed.carbs then [optNumToString parsed.carbs ++ "g carbs"] else [])
        ++ (if jsTruthy parsed.fat then [optNumToString parsed.fat ++ "g fat"] else []))
  else "Unable to parse meal"

/-- The reducer body of `calculateTotals`: fields are `(acc.x || 0) +
(meal.x || 0)` and the produced object literal has no `confidence` field. -/
def addMeal (acc meal : ParsedMeal) : ParsedMeal :=
  { calories := some (jsAdd (jsOr0 acc.calories) (jsOr0 meal.calories))
    protein := some (jsAdd (jsOr0 acc.protein) (jsOr0 meal.protein))
    carbs := some (jsAdd (jsOr0 acc.carbs) (jsOr0 meal.carbs))
    fat := some (jsAdd (jsOr0 acc.fat) (jsOr0 meal.fat))
    confidence := none }

/-- The aggregator `calculateTotals`: `meals.reduce(addMeal, all-zero)`. -/
def calculateTotals (meals : List ParsedMeal) : ParsedMeal :=
  meals.foldl addMeal
    { calories := some (.fin 0), protein := some (.fin 0),
      carbs := some (.fin 0), fat := some (.fin 0), confidence := none }

/-- No field of the estimate is `±Infinity` (it may be finite, `null`, or
`NaN`).  Every value the estimator or aggregator can produce satisfies this. -/
def noInfinite (m : ParsedMeal) : Prop :=
  m.calories ≠ some JSNum.posInf ∧ m.calories ≠ some JSNum.negInf ∧
  m.protein ≠ some JSNum.posInf ∧ m.protein ≠ some JSNum.negInf ∧
  m.carbs ≠ some JSNum.posInf ∧ m.carbs ≠ some JSNum.negInf ∧
  m.fat ≠ some JSNum.posInf ∧ m.fat ≠ some JSNum.negInf

instance (m : ParsedMeal) : Decidable (noInfinite m) := by
  unfold noInfinite
  infer_instance

/-- The reconciliation-tolerance check of the specification, as an executable
predicate: all four fields are genuine finite numbers and the implied calories
are within `calories * 0.2 + eps` of the calorie total.  A `NaN` or `null` or
infinite field falsifies it. -/
def withinToleranceB (m : ParsedMeal) (eps : ℚ) : Bool :=
  match m.calories, m.protein, m.carbs, m.fat with
  | some (.fin cal), some (.fin p), some (.fin c), some (.fin f) =>
      decide (|p * 4 + c * 4 + f * 9 - cal| ≤ cal * (2/10) + eps)
  | _, _, _, _ => false

/-! Character-level lemmas for case insensitivity -/

theorem charToNat_ofNat_valid (n : ℕ) (h : n < 55296) : (Char.ofNat n).toNat = n := by
  have hv : n.isValidChar := Or.inl h
  unfold Char.ofNat
  rw [dif_pos hv]
  rfl

theorem lowerAfterUpper (c : Char) : (Char.toUpper c).toLower = Char.toLower c := by
  simp only [Char.toUpper, Char.toLower]
  by_cases h : c.toNat ≥ 97 ∧ c.toNat ≤ 122
  · rw [if_pos h]
    have h1 : (Char.ofNat (c.toNat - 32)).toNat = c.toNat - 32 :=
      charToNat_ofNat_valid _ (by omega)
    rw [if_pos (by rw [h1]; omega :
          (Char.ofNat (c.toNat - 32)).toNat ≥ 65 ∧ (Char.ofNat (c.toNat - 32)).toNat ≤ 90),
        if_neg (by omega : ¬(c.toNat ≥ 65 ∧ c.toNat ≤ 90)), h1]
    have h2 : c.toNat - 32 + 32 = c.toNat := by omega
    rw [h2, Char.ofNat_toNat]
  · rw [if_neg h]

theorem lowerAfterLower (c : Char) : (Char.toLower c).toLower = Char.toLower c := by
  simp only [Char.toLower]
  by_cases h : c.toNat ≥ 65 ∧ c.toNat ≤ 90
  · rw [if_pos h]
    have h1 : (Char.ofNat (c.toNat + 32)).toNat = c.toNat + 32 :=
      charToNat_ofNat_valid _ (by omega)
    rw [if_neg (by rw [h1]; omega :
          ¬((Char.ofNat (c.toNat + 32)).toNat ≥ 65 ∧ (Char.ofNat (c.toNat + 32)).toNat ≤ 90))]
  · rw [if_neg h, if_neg h]

theorem upperSpace (c : Char) : Char.toUpper c = ' ' ↔ c = ' ' := by
  simp only [Char.toUpper]
  by_cases h : c.toNat ≥ 97 ∧ c.toNat ≤ 122
  · rw [if_pos h]
    constructor
    · intro heq
      have h1 : (Char.ofNat (c.toNat - 32)).toNat = c.toNat - 32 :=
        charToNat_ofNat_valid _ (by omega)
      have h2 := congrArg Char.toNat heq
      have hsp : (' ' : Char).toNat = 32 := rfl
      rw [h1, hsp] at h2
      omega
    · intro heq
      have h2 : c.toNat = (' ' : Char).toNat := congrArg Char.toNat heq
      have hsp : (' ' : Char).toNat = 32 := rfl
      rw [hsp] at h2
      omega
  · rw [if_neg h]

theorem lowerSpace (c : Char) : Char.toLower c = ' ' ↔ c = ' ' := by
  simp only [Char.toLower]
  by_cases h : c.toNat ≥ 65 ∧ c.toNat ≤ 90
  · rw [if_pos h]
    constructor
    · intro heq
      have h1 : (Char.ofNat (c.toNat + 32)).toNat = c.toNat + 32 :=
        charToNat_ofNat_valid _ (by omega)
      have h2 := congrArg Char.toNat heq
      have hsp : (' ' : Char).toNat = 32 := rfl
      rw [h1, hsp] at h2
      omega
    · intro heq
      have h2 : c.toNat = (' ' : Char).toNat := congrArg Char.toNat heq
      have hsp : (' ' : Char).toNat = 32 := rfl
      rw [hsp] at h2
      omega
  · rw [if_neg h]

theorem count_space_map (f : Char → Char) (hf : ∀ c, f c = ' ' ↔ c = ' ') (l : List Char) :
    (l.map f).count ' ' = l.count ' ' := by
  induction l with
  | nil => rfl
  | cons c t ih =>
    rw [List.map_cons, List.count_cons, List.count_cons, ih]
    congr 1
    by_cases h : c = ' '
    · rw [if_pos (by simp [(hf c).mpr h]), if_pos (by simp [h])]
    · rw [if_neg (by simp; exact fun hc => h ((hf c).mp hc)), if_neg (by simp [h])]

/-! Lemmas about the quantity-multiplier loop -/

theorem quantLoop_eq_find (desc food : List Char) (L : List (String × ℚ)) :
    quantLoop desc food L
      = ((L.find? (fun q => adjQuant q.1.data food desc)).map (fun q => q.2)).getD 1 := by
  induction L with
  | nil => rfl
  | cons q t ih =>
    by_cases h : adjQuant q.1.data food desc = true
    · rw [quantLoop, if_pos h,
        @List.find?_cons_of_pos _ (fun r => adjQuant r.1.data food desc) q t h]
      rfl
    · rw [quantLoop, if_neg h,
        @List.find?_cons_of_neg _ (fun r => adjQuant r.1.data food desc) q t (by simp [h]), ih]

theorem quantities_ge_half : ∀ q ∈ quantities, (1/2 : ℚ) ≤ q.2 := by
  with_unfolding_all decide

theorem quantLoop_ge_half (desc food : List Char) (L : List (String × ℚ))
    (hL : ∀ q ∈ L, (1/2 : ℚ) ≤ q.2) : (1/2 : ℚ) ≤ quantLoop desc food L := by
  induction L with
  | nil => norm_num [quantLoop]
  | cons q t ih =>
    rw [quantLoop]
    split
    · exact hL q (List.mem_cons_self q t)
    · exact ih fun p hp => hL p (List.mem_cons_of_mem q hp)

theorem multiplierFor_ge_half (desc food : List Char) :
    (1/2 : ℚ) ≤ multiplierFor desc food :=
  quantLoop_ge_half desc food quantities quantities_ge_half

theorem multiplierFor_pos (desc food : List Char) : 0 < multiplierFor desc food :=
  lt_of_lt_of_le (by norm_num) (multiplierFor_ge_half desc food)

theorem mockFoodDatabase_bounds :
    ∀ e ∈ mockFoodDatabase,
      (2 : ℚ) ≤ e.2.cal ∧ (0 : ℚ) ≤ e.2.prot ∧ (0 : ℚ) ≤ e.2.carb ∧ (0 : ℚ) ≤ e.2.fatv := by
  with_unfolding_all decide

/-! Characterisation of the food-matching fold -/

theorem foldl_matchStep_spec (desc : List Char) (L : List (String × FoodInfo)) :
    ∀ a : MatchAcc,
      (L.foldl (matchStep desc) a).cal
          = a.cal + ((L.filter (fun e => containsSeq e.1.data desc)).map
              (fun e => e.2.cal * multiplierFor desc e.1.data)).sum
      ∧ (L.foldl (matchStep desc) a).prot
          = a.prot + ((L.filter (fun e => containsSeq e.1.data desc)).map
              (fun e => e.2.prot * multiplierFor desc e.1.data)).sum
      ∧ (L.foldl (matchStep desc) a).carb
          = a.carb + ((L.filter (fun e => containsSeq e.1.data desc)).map
              (fun e => e.2.carb * multiplierFor desc e.1.data)).sum
      ∧ (L.foldl (matchStep desc) a).fatv
          = a.fatv + ((L.filter (fun e => containsSeq e.1.data desc)).map
              (fun e => e.2.fatv * multiplierFor desc e.1.data)).sum
      ∧ (L.foldl (matchStep desc) a).count
          = a.count + (L.filter (fun e => containsSeq e.1.data desc)).length := by
  induction L with
  | nil => intro a; simp
  | cons e t ih =>
    intro a
    obtain ⟨h1, h2, h3, h4, h5⟩ := ih (matchStep desc a e)
    cases h : containsSeq e.1.data desc with
    | true =>
      have hstep : matchStep desc a e =
          ⟨a.cal + e.2.cal * multiplierFor desc e.1.data,
           a.prot + e.2.prot * multiplierFor desc e.1.data,
           a.carb + e.2.carb * multiplierFor desc e.1.data,
           a.fatv + e.2.fatv * multiplierFor desc e.1.data,
           a.count + 1⟩ := by
        rw [matchStep, if_pos h]
      refine ⟨?_, ?_, ?_, ?_, ?_⟩
      · rw [List.foldl_cons, h1, hstep]
        simp [List.filter_cons, h]
        ring
      · rw [List.foldl_cons, h2, hstep]
        simp [List.filter_cons, h]
        ring
      · rw [List.foldl_cons, h3, hstep]
        simp [List.filter_cons, h]
        ring
      · rw [List.foldl_cons, h4, hstep]
        simp [List.filter_cons, h]
        ring
      · rw [List.foldl_cons, h5, hstep]
        simp [List.filter_cons, h]
        omega
    | false =>
      have hstep : matchStep desc a e = a := by
        rw [matchStep, if_neg (by simp [h])]
      refine ⟨?_, ?_, ?_, ?_, ?_⟩
      · rw [List.foldl_cons, h1, hstep]
        simp [List.filter_cons, h]
      · rw [List.foldl_cons, h2, hstep]
        simp [List.filter_cons, h]
      · rw [List.foldl_cons, h3, hstep]
        simp [List.filter_cons, h]
      · rw [List.foldl_cons, h4, hstep]
        simp [List.filter_cons, h]
      · rw [List.foldl_cons, h5, hstep]
        simp [List.filter_cons, h]

theorem scanFoods_spec (desc : List Char) :
    (scanFoods desc).cal
        = ((mockFoodDatabase.filter (fun e => containsSeq e.1.data desc)).map
            (fun e => e.2.cal * multiplierFor desc e.1.data)).sum
    ∧ (scanFoods desc).prot
        = ((mockFoodDatabase.filter (fun e => containsSeq e.1.data desc)).map
            (fun e => e.2.prot * multiplierFor desc e.1.data)).sum
    ∧ (scanFoods desc).carb
        = ((mockFoodDatabase.filter (fun e => containsSeq e.1.data desc)).map
            (fun e => e.2.carb * multiplierFor desc e.1.data)).sum
    ∧ (scanFoods desc).fatv
        = ((mockFoodDatabase.filter (fun e => containsSeq e.1.data desc)).map
            (fun e => e.2.fatv * multiplierFor desc e.1.data)).sum
    ∧ (scanFoods desc).count
        = (mockFoodDatabase.filter (fun e => containsSeq e.1.data desc)).length := by
  obtain ⟨h1, h2, h3, h4, h5⟩ := foldl_matchStep_spec desc mockFoodDatabase ⟨0, 0, 0, 0, 0⟩
  refine ⟨?_, ?_, ?_, ?_, ?_⟩
  · rw [scanFoods, h1]; simp
  · rw [scanFoods, h2]; simp
  · rw [scanFoods, h3]; simp
  · rw [scanFoods, h4]; simp
  · rw [scanFoods, h5]; simp

theorem scanFoods_cal_ge_one (desc : List Char) (h : (scanFoods desc).count ≠ 0) :
    (1 : ℚ) ≤ (scanFoods desc).cal := by
  obtain ⟨h1, -, -, -, h5⟩ := scanFoods_spec desc
  set F := mockFoodDatabase.filter (fun e => containsSeq e.1.data desc) with hF
  have hFne : F ≠ [] := by
    intro h0
    rw [h5, h0] at h
    exact h rfl
  obtain ⟨x, xs, hxx⟩ := List.exists_cons_of_ne_nil hFne
  have hx_mem : x ∈ F := by rw [hxx]; exact List.mem_cons_self x xs
  have hx_db : x ∈ mockFoodDatabase := List.mem_of_mem_filter hx_mem
  have hx_cal : (2 : ℚ) ≤ x.2.cal := (mockFoodDatabase_bounds x hx_db).1
  have hterm : (1 : ℚ) ≤ x.2.cal * multiplierFor desc x.1.data := by
    have := mul_le_mul hx_cal (multiplierFor_ge_half desc x.1.data)
      (by norm_num) (le_trans (by norm_num) hx_cal)
    linarith
  have hmm : x.2.cal * multiplierFor desc x.1.data
      ∈ F.map (fun e => e.2.cal * multiplierFor desc e.1.data) :=
    List.mem_map_of_mem _ hx_mem
  have hsum : x.2.cal * multiplierFor desc x.1.data
      ≤ (F.map (fun e => e.2.cal * multiplierFor desc e.1.data)).sum := by
    apply List.single_le_sum _ _ hmm
    intro y hy
    obtain ⟨z, hz, hzy⟩ := List.mem_map.mp hy
    have hz_db : z ∈ mockFoodDatabase := List.mem_of_mem_filter hz
    rw [← hzy]
    exact mul_nonneg (le_trans (by norm_num) (mockFoodDatabase_bounds z hz_db).1)
      (le_of_lt (multiplierFor_pos desc z.1.data))
  rw [h1]
  linarith

theorem jround_ge_one (q : ℚ) (h : 1 ≤ q) : (1 : ℤ) ≤ jround q := by
  rw [jround, Int.le_floor]
  push_cast
  linarith

/-! Calories are always a finite number of at least 1 -/

theorem parseMeal_calories_fin (s : String) :
    ∃ q : ℚ, (parseMeal s).calories = some (.fin q) ∧ 1 ≤ q := by
  rw [parseMeal]
  simp only [parseMealCore]
  by_cases h : (scanFoods ((strLower s).data)).count = 0
  · rw [if_pos h]
    refine ⟨_, rfl, ?_⟩
    have hw : (1 : ℚ) ≤ ((s.data.count ' ' + 1 : ℕ) : ℚ) := by
      push_cast
      have : (0 : ℚ) ≤ (s.data.count ' ' : ℕ) := Nat.cast_nonneg _
      push_cast at this
      linarith
    refine le_min (by linarith) (by norm_num)
  · rw [if_neg h]
    have hcal : (1 : ℚ) ≤ (scanFoods ((strLower s).data)).cal := scanFoods_cal_ge_one _ h
    have hj : (1 : ℤ) ≤ jround (scanFoods ((strLower s).data)).cal := jround_ge_one _ hcal
    have hjq : (1 : ℚ) ≤ ((jround (scanFoods ((strLower s).data)).cal : ℤ) : ℚ) := by
      exact_mod_cast hj
    split
    · exact ⟨_, rfl, hjq⟩
    · exact ⟨_, rfl, hjq⟩

/-! Formatter lemmas -/

theorem joinParts_cons (sep x : String) (xs : List String) :
    ∃ t : String, joinParts sep (x :: xs) = x ++ t := by
  cases xs with
  | nil => exact ⟨"", (String.append_empty x).symm⟩
  | cons y ys =>
    exact ⟨sep ++ joinParts sep (y :: ys), by rw [joinParts, String.append_assoc]⟩

theorem formatParsedMeal_ne_unable (m : ParsedMeal) (h : jsTruthy m.calories = true) :
    formatParsedMeal m ≠ "Unable to parse meal" := by
  rw [formatParsedMeal, if_pos h]
  have hl : ([optNumToString m.calories ++ " cal"]
        ++ (if jsTruthy m.protein then [optNumToString m.protein ++ "g protein"] else [])
        ++ (if jsTruthy m.carbs then [optNumToString m.carbs ++ "g carbs"] else [])
        ++ (if jsTruthy m.fat then [optNumToString m.fat ++ "g fat"] else []))
      = (optNumToString m.calories ++ " cal")
        :: ((if jsTruthy m.protein then [optNumToString m.protein ++ "g protein"] else [])
            ++ (if jsTruthy m.carbs then [optNumToString m.carbs ++ "g carbs"] else [])
            ++ (if jsTruthy m.fat then [optNumToString m.fat ++ "g fat"] else [])) := by
    simp
  rw [hl]
  obtain ⟨t, ht⟩ := joinParts_cons joinSep (optNumToString m.calories ++ " cal") _
  rw [ht]
  intro heq
  have hdat := congrArg String.data heq
  rw [String.data_append, String.data_append] at hdat
  have hc : 'c' ∈ "Unable to parse meal".data := by
    rw [← hdat]
    refine List.mem_append_left _ (List.mem_append_right _ ?_)
    decide
  exact absurd hc (by decide)

/-! Aggregator lemmas -/

theorem jsAdd_comm (x y : JSNum) : jsAdd x y = jsAdd y x := by
  cases x <;> cases y <;> simp [jsAdd, add_comm]

theorem jsOr0_noInf (x : Option JSNum) (h1 : x ≠ some JSNum.posInf)
    (h2 : x ≠ some JSNum.negInf) : ∃ q : ℚ, jsOr0 x = JSNum.fin q :=
  match x with
  | none => ⟨0, rfl⟩
  | some JSNum.nan => ⟨0, rfl⟩
  | some (JSNum.fin q) => ⟨q, rfl⟩
  | some JSNum.posInf => absurd rfl h1
  | some JSNum.negInf => absurd rfl h2

/-! Claim theorems -/

set_option maxRecDepth 100000

/-- C1: the spec asserts that reconciliation is skipped when the implied
calories are 0, so the returned macros are never `NaN`.  The code has no such
guard: on input "coffee" (calories 2, zero macros) it computes
`ratio = 2 / 0 = Infinity` and `Math.round(0 * Infinity) = NaN`, so protein,
carbs and fat all come back `NaN`.  This theorem evaluates the estimator at
that failing input, exhibiting the division-by-zero slip. -/
theorem parseMeal_coffee_division_bug :
    parseMeal "coffee" =
      { calories := some (.fin 2), protein := some .nan, carbs := some .nan,
        fat := some .nan, confidence := some (1/2) } := by
  with_unfolding_all decide

/-- C3: the spec claims every match-path result satisfies
`|protein*4 + carbs*4 + fat*9 - calories| ≤ calories*0.2 + epsilon`.  On the
match-path input "coffee" the returned macros are `NaN` (see the missing
divide-by-zero guard), so the tolerance inequality fails for every choice of
`epsilon` — there are no finite macro values at all. -/
theorem parseMeal_coffee_tolerance_violation (e : ℚ) :
    withinToleranceB (parseMeal "coffee") e = false := by
  have h : parseMeal "coffee" =
      { calories := some (.fin 2), protein := some .nan, carbs := some .nan,
        fat := some .nan, confidence := some (1/2) } := by
    with_unfolding_all decide
  rw [h]
  rfl

/-- C2 (counterexample): the claim says the fixed message is returned only
when `calories` is absent/null and that a macro value of exactly 0 is still
included.  The code tests JavaScript truthiness, so `calories = 0` yields the
message even though it is present, and `protein = 0` is dropped from the
output. -/
theorem formatParsedMeal_zero_dropped :
    formatParsedMeal
        { calories := some (.fin 0), protein := none, carbs := none,
          fat := none, confidence := none } = "Unable to parse meal"
    ∧ formatParsedMeal
        { calories := some (.fin 500), protein := some (.fin 0),
          carbs := some (.fin 50), fat := some (.fin 20), confidence := none }
        = "500 cal â€¢ 50g carbs â€¢ 20g fat" :=
  ⟨by with_unfolding_all decide, by with_unfolding_all decide⟩

/-- C2 (amended): the formatter returns the fixed "Unable to parse meal"
message exactly when `calories` is falsy (null, 0, or NaN), and includes each
macro part exactly when that field is truthy — so a field of exactly 0 is
omitted, not included.  The two sample calls show a fully populated estimate
and one with `protein = 0`. -/
theorem formatParsedMeal_truthiness :
    (∀ m : ParsedMeal,
      ((formatParsedMeal m == "Unable to parse meal") = !(jsTruthy m.calories)))
    ∧ formatParsedMeal
        { calories := some (.fin 500), protein := some (.fin 30),
          carbs := some (.fin 50), fat := some (.fin 20), confidence := none }
        = "500 cal â€¢ 30g protein â€¢ 50g carbs â€¢ 20g fat"
    ∧ formatParsedMeal
        { calories := some (.fin 500), protein := some (.fin 0),
          carbs := some (.fin 50), fat := some (.fin 20), confidence := none }
        = "500 cal â€¢ 50g carbs â€¢ 20g fat" := by
  refine ⟨?_, by with_unfolding_all decide, by with_unfolding_all decide⟩
  intro m
  cases h : jsTruthy m.calories with
  | false =>
    rw [formatParsedMeal, if_neg (by simp [h])]
    simp
  | true =>
    simp only [Bool.not_true]
    exact beq_eq_false_iff_ne.mpr (formatParsedMeal_ne_unable m h)

/-- C4: for every input string the estimator returns an estimate whose
`calories` field is a genuine finite non-negative number — present (not
null), never `NaN` or `±Infinity`, and never negative.  The estimator is a
total function by construction. -/
theorem parseMeal_total_nonneg (s : String) :
    ∃ q : ℚ, (parseMeal s).calories = some (.fin q) ∧ 0 ≤ q := by
  obtain ⟨q, hq, h1⟩ := parseMeal_calories_fin s
  exact ⟨q, hq, by linarith⟩

/-- C5: every food-lexicon key occurring as a substring of the normalised
description contributes independently to the totals: the accumulated sums
equal the sum of `value * multiplier` over exactly the matching entries
(overlapping keys included), the match count is the number of matching
entries, `estimate "chicken and rice"` returns 370/35/45/4 with confidence
0.7, and an input containing "chicken breast" is matched by both the
"chicken" and the "chicken breast" entries (match count 2). -/
theorem parseMeal_overlapping_matches :
    (∀ desc : List Char,
      (scanFoods desc).cal
          = ((mockFoodDatabase.filter (fun e => containsSeq e.1.data desc)).map
              (fun e => e.2.cal * multiplierFor desc e.1.data)).sum
      ∧ (scanFoods desc).prot
          = ((mockFoodDatabase.filter (fun e => containsSeq e.1.data desc)).map
              (fun e => e.2.prot * multiplierFor desc e.1.data)).sum
      ∧ (scanFoods desc).carb
          = ((mockFoodDatabase.filter (fun e => containsSeq e.1.data desc)).map
              (fun e => e.2.carb * multiplierFor desc e.1.data)).sum
      ∧ (scanFoods desc).fatv
          = ((mockFoodDatabase.filter (fun e => containsSeq e.1.data desc)).map
              (fun e => e.2.fatv * multiplierFor desc e.1.data)).sum
      ∧ (scanFoods desc).count
          = (mockFoodDatabase.filter (fun e => containsSeq e.1.data desc)).length)
    ∧ parseMeal "chicken and rice" =
        { calories := some (.fin 370), protein := some (.fin 35),
          carbs := some (.fin 45), fat := some (.fin 4), confidence := some (7/10) }
    ∧ containsSeq "chicken".data ((strLower "I had chicken breast").data) = true
    ∧ containsSeq "chicken breast".data ((strLower "I had chicken breast").data) = true
    ∧ (scanFoods ((strLower "I had chicken breast").data)).count = 2 := by
  refine ⟨fun desc => scanFoods_spec desc, ?_, ?_, ?_, ?_⟩
  · with_unfolding_all decide
  · with_unfolding_all decide
  · with_unfolding_all decide
  · with_unfolding_all decide

/-- C6: the multiplier of a matched food is the value of the first quantity
lexicon entry (in iteration order) whose word is whitespace-adjacent to the
food phrase in the description (before or after), defaulting to 1 when none
is; and `estimate "large salad"` returns 30 calories (20 * 1.5 rounded). -/
theorem parseMeal_quantity_multiplier :
    (∀ desc food : List Char,
      multiplierFor desc food
        = ((quantities.find? (fun q => adjQuant q.1.data food desc)).map
            (fun q => q.2)).getD 1)
    ∧ (parseMeal "large salad").calories = some (.fin 30) :=
  ⟨fun desc food => quantLoop_eq_find desc food quantities,
   by with_unfolding_all decide⟩

/-- C7: whenever no food-lexicon entry matches, the estimator returns the
length-based fallback: with `words = description.split(' ').length` (the
count of `' '` characters plus one; an empty string counts as 1 word),
`calories = min(100 + words*50, 800)`, the macros are the fixed 15%/50%/35%
split of those calories, and confidence is 0.3 (hence below 0.5);
reconciliation is skipped.  In particular `estimate ""` has calories 150 and
confidence 0.3. -/
theorem parseMeal_noMatch_fallback :
    (∀ s : String, (scanFoods ((strLower s).data)).count = 0 →
      parseMeal s =
        { calories := some (.fin (min (100 + ((s.data.count ' ' + 1 : ℕ) : ℚ) * 50) 800))
          protein := some (.fin (jround
            (min (100 + ((s.data.count ' ' + 1 : ℕ) : ℚ) * 50) 800 * (15/100) / 4) : ℤ))
          carbs := some (.fin (jround
            (min (100 + ((s.data.count ' ' + 1 : ℕ) : ℚ) * 50) 800 * (50/100) / 4) : ℤ))
          fat := some (.fin (jround
            (min (100 + ((s.data.count ' ' + 1 : ℕ) : ℚ) * 50) 800 * (35/100) / 9) : ℤ))
          confidence := some (3/10) }
      ∧ (3/10 : ℚ) < 5/10)
    ∧ parseMeal "" =
        { calories := some (.fin 150), protein := some (.fin 6),
          carbs := some (.fin 19), fat := some (.fin 6), confidence := some (3/10) } := by
  refine ⟨fun s h => ⟨?_, by norm_num⟩, by with_unfolding_all decide⟩
  rw [parseMeal]
  simp only [parseMealCore]
  rw [if_pos h]

/-- C7 (witness): the no-match fallback theorem applied at the concrete
no-match input "hello world" (two words, hence 200 calories). -/
theorem parseMeal_noMatch_fallback_witness :
    (scanFoods ((strLower "hello world").data)).count = 0
    ∧ parseMeal "hello world" =
        { calories := some (.fin (min (100 + (("hello world".data.count ' ' + 1 : ℕ) : ℚ) * 50) 800))
          protein := some (.fin (jround
            (min (100 + (("hello world".data.count ' ' + 1 : ℕ) : ℚ) * 50) 800 * (15/100) / 4) : ℤ))
          carbs := some (.fin (jround
            (min (100 + (("hello world".data.count ' ' + 1 : ℕ) : ℚ) * 50) 800 * (50/100) / 4) : ℤ))
          fat := some (.fin (jround
            (min (100 + (("hello world".data.count ' ' + 1 : ℕ) : ℚ) * 50) 800 * (35/100) / 9) : ℤ))
          confidence := some (3/10) } :=
  ⟨by with_unfolding_all decide,
   (parseMeal_noMatch_fallback.1 "hello world" (by with_unfolding_all decide)).1⟩

/-- C8: the estimator is case-insensitive: for every string `s`, the result
on the uppercased and on the lowercased input agrees with the result on `s`
in every field. -/
theorem parseMeal_case_insensitive (s : String) :
    parseMeal (strUpper s) = parseMeal s ∧ parseMeal (strLower s) = parseMeal s := by
  have e1 : (strLower (strUpper s)).data = (strLower s).data := by
    show (s.data.map Char.toUpper).map Char.toLower = s.data.map Char.toLower
    rw [List.map_map]
    have hf : Char.toLower ∘ Char.toUpper = Char.toLower := funext lowerAfterUpper
    rw [hf]
  have e2 : (strUpper s).data.count ' ' = s.data.count ' ' := by
    show (s.data.map Char.toUpper).count ' ' = s.data.count ' '
    exact count_space_map _ upperSpace s.data
  have e3 : (strLower (strLower s)).data = (strLower s).data := by
    show (s.data.map Char.toLower).map Char.toLower = s.data.map Char.toLower
    rw [List.map_map]
    have hf : Char.toLower ∘ Char.toLower = Char.toLower := funext lowerAfterLower
    rw [hf]
  have e4 : (strLower s).data.count ' ' = s.data.count ' ' := by
    show (s.data.map Char.toLower).count ' ' = s.data.count ' '
    exact count_space_map _ lowerSpace s.data
  constructor
  · show parseMealCore ((strLower (strUpper s)).data) ((strUpper s).data.count ' ')
        = parseMealCore ((strLower s).data) (s.data.count ' ')
    rw [e1, e2]
  · show parseMealCore ((strLower (strLower s)).data) ((strLower s).data.count ' ')
        = parseMealCore ((strLower s).data) (s.data.count ' ')
    rw [e3, e4]

theorem foldl_addMeal_confidence (l : List ParsedMeal) :
    ∀ a : ParsedMeal, a.confidence = none → (l.foldl addMeal a).confidence = none := by
  induction l with
  | nil => intro a h; exact h
  | cons x t ih => intro a h; exact ih (addMeal a x) rfl

/-- C9: the aggregator is a pure total function over the four numeric fields:
the combining step is commutative, and associative on estimates whose fields
are not `±Infinity` (finite, null, or NaN — every value this module can
produce); null fields count as 0; the empty sequence sums to all four fields
present and 0; the result never carries a confidence field; and
`sum [{300,null,30,null},{null,20,null,10}] = {300,20,30,10}`. -/
theorem calculateTotals_spec :
    calculateTotals []
        = { calories := some (.fin 0), protein := some (.fin 0),
            carbs := some (.fin 0), fat := some (.fin 0), confidence := none }
    ∧ (∀ a b : ParsedMeal, addMeal a b = addMeal b a)
    ∧ (∀ a b c : ParsedMeal, noInfinite a → noInfinite b → noInfinite c →
        addMeal (addMeal a b) c = addMeal a (addMeal b c))
    ∧ (∀ l : List ParsedMeal, (calculateTotals l).confidence = none)
    ∧ calculateTotals
        [{ calories := some (.fin 300), protein := none, carbs := some (.fin 30),
           fat := none, confidence := none },
         { calories := none, protein := some (.fin 20), carbs := none,
           fat := some (.fin 10), confidence := some (1/2) }]
        = { calories := some (.fin 300), protein := some (.fin 20),
            carbs := some (.fin 30), fat := some (.fin 10), confidence := none } := by
  refine ⟨rfl, ?_, ?_, ?_, by with_unfolding_all decide⟩
  · intro a b
    simp only [addMeal, ParsedMeal.mk.injEq]
    exact ⟨congrArg some (jsAdd_comm _ _), congrArg some (jsAdd_comm _ _),
      congrArg some (jsAdd_comm _ _), congrArg some (jsAdd_comm _ _), trivial⟩
  · intro a b c ha hb hc
    obtain ⟨ha1, ha2, ha3, ha4, ha5, ha6, ha7, ha8⟩ := ha
    obtain ⟨hb1, hb2, hb3, hb4, hb5, hb6, hb7, hb8⟩ := hb
    obtain ⟨hc1, hc2, hc3, hc4, hc5, hc6, hc7, hc8⟩ := hc
    obtain ⟨qa1, ea1⟩ := jsOr0_noInf _ ha1 ha2
    obtain ⟨qa2, ea2⟩ := jsOr0_noInf _ ha3 ha4
    obtain ⟨qa3, ea3⟩ := jsOr0_noInf _ ha5 ha6
    obtain ⟨qa4, ea4⟩ := jsOr0_noInf _ ha7 ha8
    obtain ⟨qb1, eb1⟩ := jsOr0_noInf _ hb1 hb2
    obtain ⟨qb2, eb2⟩ := jsOr0_noInf _ hb3 hb4
    obtain ⟨qb3, eb3⟩ := jsOr0_noInf _ hb5 hb6
    obtain ⟨qb4, eb4⟩ := jsOr0_noInf _ hb7 hb8
    obtain ⟨qc1, ec1⟩ := jsOr0_noInf _ hc1 hc2
    obtain ⟨qc2, ec2⟩ := jsOr0_noInf _ hc3 hc4
    obtain ⟨qc3, ec3⟩ := jsOr0_noInf _ hc5 hc6
    obtain ⟨qc4, ec4⟩ := jsOr0_noInf _ hc7 hc8
    simp only [addMeal, ea1, ea2, ea3, ea4, eb1, eb2, eb3, eb4, ec1, ec2, ec3, ec4]
    simp only [jsAdd, jsOr0, ParsedMeal.mk.injEq]
    refine ⟨?_, ?_, ?_, ?_, trivial⟩ <;> exact congrArg some (congrArg JSNum.fin (add_assoc _ _ _))
  · intro l
    exact foldl_addMeal_confidence l _ rfl

/-- C9 (witness): the commutative/associative components applied at concrete
estimates, with the no-infinity hypotheses discharged by evaluation. -/
theorem calculateTotals_spec_witness :
    noInfinite { calories := some (.fin 1), protein := none, carbs := some .nan,
                 fat := some (.fin 2), confidence := none }
    ∧ noInfinite { calories := some (.fin 3), protein := some (.fin 4), carbs := none,
                   fat := some .nan, confidence := some (1/2) }
    ∧ noInfinite { calories := none, protein := some (.fin 5), carbs := some (.fin 6),
                   fat := some (.fin 7), confidence := none }
    ∧ addMeal (addMeal
          { calories := some (.fin 1), protein := none, carbs := some .nan,
            fat := some (.fin 2), confidence := none }
          { calories := some (.fin 3), protein := some (.fin 4), carbs := none,
            fat := some .nan, confidence := some (1/2) })
        { calories := none, protein := some (.fin 5), carbs := some (.fin 6),
          fat := some (.fin 7), confidence := none }
      = addMeal
          { calories := some (.fin 1), protein := none, carbs := some .nan,
            fat := some (.fin 2), confidence := none }
          (addMeal
            { calories := some (.fin 3), protein := some (.fin 4), carbs := none,
              fat := some .nan, confidence := some (1/2) }
            { calories := none, protein := some (.fin 5), carbs := some (.fin 6),
              fat := some (.fin 7), confidence := none }) :=
  ⟨by with_unfolding_all decide, by with_unfolding_all decide,
   by with_unfolding_all decide,
   calculateTotals_spec.2.2.1 _ _ _
     (by with_unfolding_all decide) (by with_unfolding_all decide)
     (by with_unfolding_all decide)⟩

/-- C10: for every input string the estimate's calories are a finite number
of at least 1 (at least 150 on the no-match path, and at least 1 on the match
path because every lexicon entry has at least 2 calories and the smallest
multiplier is 1/2), so the formatter applied to any estimator output never
produces the "Unable to parse meal" message. -/
theorem parseMeal_never_unable_msg (s : String) :
    ∃ q : ℚ, (parseMeal s).calories = some (.fin q) ∧ 1 ≤ q ∧
      ((formatParsedMeal (parseMeal s) == "Unable to parse meal") = false) := by
  obtain ⟨q, hq, h1⟩ := parseMeal_calories_fin s
  have hq0 : q ≠ 0 := by
    intro h0
    rw [h0] at h1
    norm_num at h1
  have ht : jsTruthy (parseMeal s).calories = true := by
    rw [hq]
    simp [jsTruthy, hq0]
  exact ⟨q, hq, h1, beq_eq_false_iff_ne.mpr (formatParsedMeal_ne_unable _ ht)⟩
